import Mathlib

set_option maxHeartbeats 1000000
set_option maxRecDepth 8000

/-!
Verification of the ModelPilot router management tool (router.py).

The development shallowly embeds the data model and operations of the tool:
a JSON value type, the serializer modelling the json.dumps call used by the
tool, a parser modelling json.loads, the preset catalog, the HTTP client
api_request, the create_router and delete_model operations, and the command
dispatcher for the create subcommand.
-/

mutual

inductive Json where
  | null : Json
  | bool : Bool → Json
  | num : Int → Nat → Json
  | str : String → Json
  | arr : JsonList → Json
  | obj : JsonFields → Json

inductive JsonList where
  | nil : JsonList
  | cons : Json → JsonList → JsonList

inductive JsonFields where
  | nil : JsonFields
  | cons : String → Json → JsonFields → JsonFields

end

/-- Length of a JSON array, modelling the Python len call on a list. -/
def jlength : JsonList → Nat
  | .nil => 0
  | .cons _ xs => jlength xs + 1

/-- Membership of a value in a JSON array. -/
def jmem (x : Json) : JsonList → Prop
  | .nil => False
  | .cons y ys => x = y ∨ jmem x ys

def fieldsGet : JsonFields → String → Option Json
  | .nil, _ => none
  | .cons k v fs, k2 => if k = k2 then some v else fieldsGet fs k2

/-- Lookup of a key in the fields of a JSON object, modelling Python dict
access on a dict decoded from JSON (keys are unique in the dicts the tool
builds). Returns none when the value is not an object or the key is absent. -/
def objGet : Json → String → Option Json
  | .obj fs, k => fieldsGet fs k
  | _, _ => none

/-- Two-level lookup used to inspect nested request payloads. -/
def objGet2 (j : Json) (k1 k2 : String) : Option Json :=
  match objGet j k1 with
  | some v => objGet v k2
  | none => none

/-! ### Serializer: model of json.dumps with its default settings
(ensure_ascii true, separators comma-space and colon-space). -/

/-- Lower-case hexadecimal digit character for a value below 16. -/
def hexDig (d : Nat) : Char :=
  if d < 10 then Char.ofNat (48 + d) else Char.ofNat (97 + (d - 10))

/-- Four-character hexadecimal rendering of a code point below 0x10000,
as produced inside a backslash-u escape. -/
def toHex4 (n : Nat) : List Char :=
  [hexDig (n / 4096 % 16), hexDig (n / 256 % 16), hexDig (n / 16 % 16), hexDig (n % 16)]

/-- Escape of a single character, following the Python json encoder with
ensure_ascii: quote and backslash get two-character escapes, the five named
control characters get short escapes, other control characters and all
non-ASCII characters get backslash-u escapes, with surrogate pairs above
0xFFFF. -/
def escapeChar (c : Char) : List Char :=
  if c = '"' then ['\\', '"']
  else if c = '\\' then ['\\', '\\']
  else if c = '\x08' then ['\\', 'b']
  else if c = '\t' then ['\\', 't']
  else if c = '\n' then ['\\', 'n']
  else if c = '\x0c' then ['\\', 'f']
  else if c = '\r' then ['\\', 'r']
  else if c.toNat < 0x20 then '\\' :: 'u' :: toHex4 c.toNat
  else if c.toNat ≤ 0x7e then [c]
  else if c.toNat < 0x10000 then '\\' :: 'u' :: toHex4 c.toNat
  else
    ('\\' :: 'u' :: toHex4 (0xd800 + (c.toNat - 0x10000) / 0x400)) ++
    ('\\' :: 'u' :: toHex4 (0xdc00 + (c.toNat - 0x10000) % 0x400))

/-- Escape of a character sequence appearing inside a JSON string literal. -/
def escapeStr : List Char → List Char
  | [] => []
  | c :: cs => escapeChar c ++ escapeStr cs

/-- Decimal digit character. -/
def digitChar (d : Nat) : Char := Char.ofNat (48 + d)

/-- Little-endian decimal digits with explicit fuel, so that the
serializer evaluates by kernel reduction. -/
def digitsLE : Nat → Nat → List Nat
  | 0, _ => []
  | fuel + 1, n => if n = 0 then [] else n % 10 :: digitsLE fuel (n / 10)

/-- Big-endian decimal digits of a natural number, never empty. -/
def natDigitsBE (n : Nat) : List Nat :=
  if n = 0 then [0] else (digitsLE n n).reverse

/-- Decimal rendering of a natural number. -/
def printNat (n : Nat) : List Char := (natDigitsBE n).map digitChar

/-- Fractional part rendered to exactly k digits, left-padded with zeros. -/
def printFrac (k f : Nat) : List Char :=
  (List.replicate (k - (natDigitsBE f).length) 0 ++ natDigitsBE f).map digitChar

/-- Decimal rendering of the number m / 10^k, as json.dumps renders the
float literals the tool uses. -/
def dumpsNum (m : Int) (k : Nat) : List Char :=
  (if m < 0 then ['-'] else []) ++
  printNat (m.natAbs / 10 ^ k) ++
  (if k = 0 then [] else '.' :: printFrac k (m.natAbs % 10 ^ k))

/-- Rendering of an object key together with the colon-space separator. -/
def keyPart (k : String) : List Char :=
  '"' :: (escapeStr k.data ++ ['"', ':', ' '])

mutual

def dumpsV : Json → List Char
  | .null => "null".data
  | .bool true => "true".data
  | .bool false => "false".data
  | .num m k => dumpsNum m k
  | .str s => '"' :: (escapeStr s.data ++ ['"'])
  | .arr .nil => ['[', ']']
  | .arr (.cons x xs) => '[' :: (dumpsV x ++ dumpsItems xs)
  | .obj .nil => ['\x7b', '\x7d']
  | .obj (.cons k v fs) => '\x7b' :: (keyPart k ++ (dumpsV v ++ dumpsFields fs))
termination_by structural j => j

def dumpsItems : JsonList → List Char
  | .nil => [']']
  | .cons x xs => ',' :: ' ' :: (dumpsV x ++ dumpsItems xs)
termination_by structural l => l

def dumpsFields : JsonFields → List Char
  | .nil => ['\x7d']
  | .cons k v fs => ',' :: ' ' :: (keyPart k ++ (dumpsV v ++ dumpsFields fs))
termination_by structural l => l

end

/-- Model of json.dumps with default settings, as a string. -/
def dumps (j : Json) : String := ⟨dumpsV j⟩

/-! ### Parser: model of json.loads, on the fragment of JSON the tool
exchanges (no exponent notation in numbers, which the serializer never
emits and the tool never receives). -/

/-- Skip JSON whitespace. -/
def skipWs : List Char → List Char
  | [] => []
  | c :: cs =>
    if c.toNat = 32 ∨ c.toNat = 9 ∨ c.toNat = 10 ∨ c.toNat = 13 then skipWs cs else c :: cs

/-- Value of a hexadecimal digit character. -/
def hexVal (c : Char) : Option Nat :=
  if '0' ≤ c ∧ c ≤ '9' then some (c.toNat - 48)
  else if 'a' ≤ c ∧ c ≤ 'f' then some (c.toNat - 87)
  else if 'A' ≤ c ∧ c ≤ 'F' then some (c.toNat - 55)
  else none

/-- Value of a four-digit hexadecimal escape. -/
def hex4 (a b c d : Char) : Option Nat :=
  match hexVal a, hexVal b, hexVal c, hexVal d with
  | some x, some y, some z, some w => some (((x * 16 + y) * 16 + z) * 16 + w)
  | _, _, _, _ => none

/-- Decode one escape sequence after a backslash, returning the decoded
character and the remaining input. Handles exactly the escapes json.loads
accepts, with surrogate pairs combined as the Python decoder does. -/
def parseEsc : List Char → Option (Char × List Char)
  | 'u' :: a :: b :: d :: e :: rest2 =>
    match hex4 a b d e with
    | none => none
    | some n =>
      if n < 0xd800 ∨ 0xe000 ≤ n then some (Char.ofNat n, rest2)
      else if n < 0xdc00 then
        match rest2 with
        | c1 :: c2 :: a2 :: b2 :: d2 :: e2 :: rest3 =>
          if c1 = '\\' ∧ c2 = 'u' then
            match hex4 a2 b2 d2 e2 with
            | none => none
            | some m =>
              if 0xdc00 ≤ m ∧ m < 0xe000 then
                some (Char.ofNat (0x10000 + (n - 0xd800) * 0x400 + (m - 0xdc00)), rest3)
              else none
          else none
        | _ => none
      else none
  | 'n' :: rest2 => some ('\n', rest2)
  | 't' :: rest2 => some ('\t', rest2)
  | 'b' :: rest2 => some ('\x08', rest2)
  | 'f' :: rest2 => some ('\x0c', rest2)
  | 'r' :: rest2 => some ('\r', rest2)
  | '"' :: rest2 => some ('"', rest2)
  | '\\' :: rest2 => some ('\\', rest2)
  | '/' :: rest2 => some ('/', rest2)
  | _ => none

/-- Parse the body of a JSON string literal after its opening quote,
returning the decoded characters and the input after the closing quote.
The fuel argument only bounds the recursion; callers pass the input
length, which always suffices. -/
def parseStrF : Nat → List Char → Option (List Char × List Char)
  | 0, _ => none
  | _ + 1, [] => none
  | fuel + 1, c :: rest =>
    if c = '"' then some ([], rest)
    else if c = '\\' then
      match parseEsc rest with
      | some (ch, rest2) => (parseStrF fuel rest2).map (fun p => (ch :: p.1, p.2))
      | none => none
    else if 0x20 ≤ c.toNat then (parseStrF fuel rest).map (fun p => (c :: p.1, p.2))
    else none

/-- Parse a JSON string literal body, with sufficient fuel. -/
def parseStrContent (cs : List Char) : Option (List Char × List Char) :=
  parseStrF (cs.length + 1) cs

/-- Consume a maximal run of decimal digit characters. -/
def takeDigits : List Char → (List Nat × List Char)
  | [] => ([], [])
  | c :: rest =>
    if c.isDigit then
      let p := takeDigits rest
      ((c.toNat - 48) :: p.1, p.2)
    else ([], c :: rest)

/-- Numeric value of a big-endian digit list. -/
def digitsVal (ds : List Nat) : Nat := ds.foldl (fun a d => 10 * a + d) 0

/-- Parse an unsigned decimal number, returning its value as a scaled
integer pair (value, number of fractional digits). -/
def parseNumAbs (cs : List Char) : Option ((Nat × Nat) × List Char) :=
  match takeDigits cs with
  | (ds, rest) =>
    if ds = [] then none
    else
      match rest with
      | c :: rest2 =>
        if c = '.' then
          match takeDigits rest2 with
          | (fs, rest3) =>
            if fs = [] then none
            else some ((digitsVal ds * 10 ^ fs.length + digitsVal fs, fs.length), rest3)
        else some ((digitsVal ds, 0), c :: rest2)
      | [] => some ((digitsVal ds, 0), [])

/-- Parse a JSON number with optional leading minus sign. -/
def parseNum (cs : List Char) : Option (Json × List Char) :=
  match cs with
  | c :: rest =>
    if c = '-' then (parseNumAbs rest).map (fun p => (Json.num (-(p.1.1 : Int)) p.1.2, p.2))
    else (parseNumAbs (c :: rest)).map (fun p => (Json.num (p.1.1 : Int) p.1.2, p.2))
  | [] => none

/-- Consume an expected literal character sequence. -/
def expectChars : List Char → List Char → Option (List Char)
  | [], cs => some cs
  | l :: ls, c :: cs => if c = l then expectChars ls cs else none
  | _ :: _, [] => none

mutual

def parseVal : Nat → List Char → Option (Json × List Char)
  | 0, _ => none
  | fuel + 1, cs =>
    match cs with
    | [] => none
    | c :: rest =>
      if c = 'n' then
        match expectChars ['u', 'l', 'l'] rest with
        | some rest2 => some (.null, rest2)
        | none => none
      else if c = 't' then
        match expectChars ['r', 'u', 'e'] rest with
        | some rest2 => some (.bool true, rest2)
        | none => none
      else if c = 'f' then
        match expectChars ['a', 'l', 's', 'e'] rest with
        | some rest2 => some (.bool false, rest2)
        | none => none
      else if c = '"' then (parseStrContent rest).map (fun p => (.str ⟨p.1⟩, p.2))
      else if c = '[' then
        match skipWs rest with
        | c2 :: r =>
          if c2 = ']' then some (.arr .nil, r)
          else (parseItems fuel (c2 :: r)).map (fun p => (.arr p.1, p.2))
        | [] => (parseItems fuel []).map (fun p => (.arr p.1, p.2))
      else if c = '\x7b' then
        match skipWs rest with
        | c2 :: r =>
          if c2 = '\x7d' then some (.obj .nil, r)
          else (parseFields fuel (c2 :: r)).map (fun p => (.obj p.1, p.2))
        | [] => (parseFields fuel []).map (fun p => (.obj p.1, p.2))
      else parseNum (c :: rest)

def parseItems : Nat → List Char → Option (JsonList × List Char)
  | 0, _ => none
  | fuel + 1, cs =>
    match parseVal fuel cs with
    | none => none
    | some (v, r) =>
      match skipWs r with
      | c :: r2 =>
        if c = ']' then some (.cons v .nil, r2)
        else if c = ',' then
          match parseItems fuel (skipWs r2) with
          | some (xs, r3) => some (.cons v xs, r3)
          | none => none
        else none
      | [] => none

def parseFields : Nat → List Char → Option (JsonFields × List Char)
  | 0, _ => none
  | fuel + 1, cs =>
    match cs with
    | c0 :: rest =>
      if c0 = '"' then
        match parseStrContent rest with
        | none => none
        | some (k, r) =>
          match skipWs r with
          | c :: r2 =>
            if c = ':' then
              match parseVal fuel (skipWs r2) with
              | none => none
              | some (v, r3) =>
                match skipWs r3 with
                | c4 :: r4 =>
                  if c4 = '\x7d' then some (.cons ⟨k⟩ v .nil, r4)
                  else if c4 = ',' then
                    match parseFields fuel (skipWs r4) with
                    | some (fs, r5) => some (.cons ⟨k⟩ v fs, r5)
                    | none => none
                  else none
                | [] => none
            else none
          | [] => none
      else none
    | [] => none

end

/-- Model of json.loads: parse a complete JSON document, requiring the
whole input to be consumed up to trailing whitespace. -/
def parseJson (s : String) : Option Json :=
  match parseVal (s.data.length + 1) (skipWs s.data) with
  | some (j, r) => if skipWs r = [] then some j else none
  | none => none

/-! ### Program model: configuration, preset catalog, operations and
command dispatcher of router.py. -/

/-- The fixed embedding-model constant EMBEDDING_MODEL. -/
def EMBEDDING_MODEL : String := "mistral/mistral-embed"

/-- Keys of the preset catalog, as constrained by the argparse choices. -/
inductive PresetKey where
  | coding : PresetKey
  | reasoning : PresetKey
  | quick : PresetKey
  | creative : PresetKey

/-- A preset: default model plus ordered route definitions. -/
structure Preset where
  defaultModel : String
  routes : JsonList

/-- Conversion of a list of strings to a JSON array of strings. -/
def strArr : List String → JsonList
  | [] => .nil
  | s :: r => .cons (.str s) (strArr r)

/-- A route object as written in the preset catalog: name, description,
utterances and score threshold, in source order. The threshold value v
with scale k denotes the decimal literal v / 10 ^ k. -/
def mkRoute (name description : String) (utterances : List String) (v : Int) (k : Nat) : Json :=
  .obj (.cons "name" (.str name)
    (.cons "description" (.str description)
    (.cons "utterances" (.arr (strArr utterances))
    (.cons "score_threshold" (.num v k) .nil))))

def codingRoute1 : Json :=
  mkRoute "mistral/codestral-2508"
    "Primary: Code generation (256K ctx), FIM, 80+ languages"
    ["write function", "implement algorithm", "code this", "create class",
     "build API", "develop feature", "program this", "write code",
     "implement in", "code solution", "create code"] 30 2

def codingRoute2 : Json :=
  mkRoute "mistral/devstral-medium-2507"
    "Agentic coding (61.6% SWE-Bench), multi-file"
    ["fix bug", "debug", "find error", "troubleshoot", "why doesn\x27t work",
     "fix code", "solve issue", "diagnose", "trace error"] 35 2

def codingRoute3 : Json :=
  mkRoute "groq/openai/gpt-oss-120b"
    "120B GPT, code reasoning, ~500 tok/s"
    ["explain code", "how does this work", "code review", "analyze code",
     "what does this do", "understand code", "review implementation"] 40 2

def reasoningRoute1 : Json :=
  mkRoute "groq/llama-3.3-70b-versatile"
    "70B Llama-3.3, ~280 tok/s, 131K ctx"
    ["analyze", "think about", "reason", "evaluate", "consider",
     "analysis", "logical", "think carefully"] 30 2

def reasoningRoute2 : Json :=
  mkRoute "groq/deepseek-r1-distill-llama-70b"
    "DeepSeek R1, 94.5% MATH-500"
    ["solve mathematically", "calculate", "prove", "math problem",
     "equation", "theorem", "compute", "work out"] 35 2

def reasoningRoute3 : Json :=
  mkRoute "gemini/gemini-2.5-flash"
    "Gemini 2.5, 1M ctx, multimodal"
    ["complex problem", "multi-step", "detailed reasoning",
     "comprehensive analysis", "in-depth", "deep dive"] 40 2

def quickRoute1 : Json :=
  mkRoute "groq/llama-3.1-8b-instant"
    "8B Llama, ultra-fast, simple queries"
    ["what is", "define", "who is", "when was", "where is",
     "quick", "simple", "briefly", "short answer"] 25 2

def quickRoute2 : Json :=
  mkRoute "gemini/gemini-2.5-flash-lite"
    "Flash Lite, ~392 tok/s, low cost"
    ["translate", "convert", "transform", "change to", "in another language"] 30 2

def quickRoute3 : Json :=
  mkRoute "mistral/open-mistral-7b"
    "Open Mistral 7B, lightweight"
    ["summarize", "tldr", "key points", "main idea", "gist", "sum up"] 30 2

def creativeRoute1 : Json :=
  mkRoute "groq/moonshotai/kimi-k2-instruct"
    "Kimi K2, 32B MoE, storytelling"
    ["write story", "tell story", "narrative", "fiction", "novel",
     "short story", "tale", "once upon a time"] 30 2

def creativeRoute2 : Json :=
  mkRoute "groq/moonshotai/kimi-k2-instruct-0905"
    "Kimi K2 updated, enhanced creative"
    ["poem", "poetry", "verse", "rhyme", "compose poem", "haiku", "sonnet"] 35 2

def creativeRoute3 : Json :=
  mkRoute "mistral/open-mistral-nemo"
    "Mistral Nemo 12B, multilingual"
    ["email", "letter", "message", "draft", "formal letter",
     "business email", "professional message"] 35 2

/-- The PRESETS catalog of router.py. -/
def PRESETS : PresetKey → Preset
  | .coding =>
    ⟨"mistral/codestral-2508", .cons codingRoute1 (.cons codingRoute2 (.cons codingRoute3 .nil))⟩
  | .reasoning =>
    ⟨"groq/llama-3.3-70b-versatile", .cons reasoningRoute1 (.cons reasoningRoute2 (.cons reasoningRoute3 .nil))⟩
  | .quick =>
    ⟨"groq/llama-3.1-8b-instant", .cons quickRoute1 (.cons quickRoute2 (.cons quickRoute3 .nil))⟩
  | .creative =>
    ⟨"groq/moonshotai/kimi-k2-instruct", .cons creativeRoute1 (.cons creativeRoute2 (.cons creativeRoute3 .nil))⟩

/-- A fault that propagates out of an operation uncaught: a
connection-level failure (DNS, TLS, refused connection, read error), or
the attribute error raised when the identifier lookup is attempted on a
decoded response body that is not a dict. -/
inductive Fault where
  | connError : String → Fault
  | attrError : Fault

/-- A record of one HTTP request handed to the connection. -/
structure Request where
  method : String
  path : String
  body : Option Json

/-- Lifecycle events of the per-request connection. -/
inductive ConnEvent where
  | opened : ConnEvent
  | closed : ConnEvent

/-- Outcome of one api_request call: the returned (status, decoded body)
pair or a propagated fault, the connection lifecycle trace, and the
requests sent on the wire. -/
structure ApiOutcome where
  result : Except Fault (Nat × Json)
  events : List ConnEvent
  sent : List Request

/-- Decoding of a response body: json.loads, falling back to a raw
wrapper object when the body is not valid JSON. -/
def decodeBody (text : String) : Json :=
  match parseJson text with
  | some j => j
  | none => .obj (.cons "raw" (.str text) .nil)

/-- Model of api_request: open a connection, send the request, read the
response (the behaviour of the remote side is the resp oracle), decode
with raw fallback, and close the connection on every exit path, as the
try and finally structure of the source does. -/
def api_request (method path : String) (body : Option Json) (resp : Except Fault (Nat × String)) : ApiOutcome :=
  match resp with
  | .error f => ⟨.error f, [.opened, .closed], [⟨method, path, body⟩]⟩
  | .ok (st, text) =>
    match parseJson text with
    | some j => ⟨.ok (st, j), [.opened, .closed], [⟨method, path, body⟩]⟩
    | none => ⟨.ok (st, .obj (.cons "raw" (.str text) .nil)), [.opened, .closed], [⟨method, path, body⟩]⟩

/-- User-facing output of the operations, one constructor per print site
that the claims mention. -/
inductive Report where
  | createHeader : String → String → Nat → Report
  | createSuccess : String → Json → Report
  | createFailure : Nat → List Char → Report
  | deleteHeader : String → Report
  | deleteSuccess : Report
  | deleteFailure : Nat → Json → Report
  | usageError : String → Report

/-- Whether a report is one of the two usage errors of the dispatcher. -/
def Report.isUsage : Report → Bool
  | .usageError _ => true
  | _ => false

def spacesN (n : Nat) : List Char := List.replicate n ' '

mutual

/-- Model of json.dumps with indent 2, used to render error bodies. -/
def dumpsInd : Nat → Json → List Char
  | _, .null => "null".data
  | _, .bool true => "true".data
  | _, .bool false => "false".data
  | _, .num m k => dumpsNum m k
  | _, .str s => '"' :: (escapeStr s.data ++ ['"'])
  | _, .arr .nil => ['[', ']']
  | ind, .arr (.cons x xs) =>
    '[' :: '\n' :: (spacesN (ind + 2) ++ (dumpsInd (ind + 2) x ++ dumpsIndItems ind xs))
  | _, .obj .nil => ['\x7b', '\x7d']
  | ind, .obj (.cons k v fs) =>
    '\x7b' :: '\n' :: (spacesN (ind + 2) ++ (keyPart k ++ (dumpsInd (ind + 2) v ++ dumpsIndFields ind fs)))
termination_by structural _ j => j

def dumpsIndItems : Nat → JsonList → List Char
  | ind, .nil => '\n' :: (spacesN ind ++ [']'])
  | ind, .cons x xs =>
    ',' :: '\n' :: (spacesN (ind + 2) ++ (dumpsInd (ind + 2) x ++ dumpsIndItems ind xs))
termination_by structural _ l => l

def dumpsIndFields : Nat → JsonFields → List Char
  | ind, .nil => '\n' :: (spacesN ind ++ ['\x7d'])
  | ind, .cons k v fs =>
    ',' :: '\n' :: (spacesN (ind + 2) ++ (keyPart k ++ (dumpsInd (ind + 2) v ++ dumpsIndFields ind fs)))
termination_by structural _ l => l

end

/-- Truncated rendering of an error body: json.dumps with indent 2,
sliced to the first 500 characters. -/
def renderErr (j : Json) : List Char := (dumpsInd 0 j).take 500

/-- Result of running one operation: return value or propagated fault,
printed reports in order, and the requests sent on the wire. -/
structure RunOut (α : Type) where
  result : Except Fault α
  reports : List Report
  calls : List Request

/-- The creation payload built by create_router: the routes are nested as
a JSON-encoded string in auto_router_config, next to the default model and
the fixed embedding model, under litellm_params. -/
def createPayload (name : String) (routes : JsonList) (defaultModel : String) : Json :=
  .obj (.cons "model_name" (.str name)
    (.cons "litellm_params" (.obj
      (.cons "model" (.str ("auto_router/" ++ name))
      (.cons "auto_router_config" (.str (dumps (.obj (.cons "routes" (.arr routes) .nil))))
      (.cons "auto_router_default_model" (.str defaultModel)
      (.cons "auto_router_embedding_model" (.str EMBEDDING_MODEL) .nil)))))
    (.cons "model_info" (.obj (.cons "health_check" (.bool false) .nil)) .nil)))

/-- Model of the Python dict get call with a default: on a decoded JSON
object it returns the named field, or the default when the key is absent;
on any other decoded value the attribute lookup raises, which propagates
as a fault (router.py line 232 performs it on whatever json.loads
returned). -/
def dictGet (j : Json) (k : String) (dflt : Json) : Except Fault Json :=
  match j with
  | .obj fs => .ok ((fieldsGet fs k).getD dflt)
  | _ => .error .attrError

/-- Model of create_router: print the header, POST the payload to
/model/new, then on status 200 look up the assigned identifier with a
dict get (a raising lookup when the decoded body is not a dict) and
report success, or on any other status report the status and truncated
error rendering, returning the boolean success indicator. The success
banner and the identifier line of the source are modelled as the single
createSuccess report, which is absent when the lookup raises between
them. -/
def create_router (name : String) (routes : JsonList) (defaultModel : String) (resp : Except Fault (Nat × String)) : RunOut Bool :=
  let hdr := Report.createHeader name defaultModel (jlength routes)
  let out := api_request "POST" "/model/new" (some (createPayload name routes defaultModel)) resp
  match out.result with
  | .error f => ⟨.error f, [hdr], out.sent⟩
  | .ok (st, body) =>
    if st = 200 then
      match dictGet body "model_id" (.str "N/A") with
      | .ok v => ⟨.ok true, [hdr, .createSuccess name v], out.sent⟩
      | .error f => ⟨.error f, [hdr], out.sent⟩
    else ⟨.ok false, [hdr, .createFailure st (renderErr body)], out.sent⟩

/-- Model of delete_model: POST the identifier to /model/delete and
report the outcome; the operation itself never raises on a non-200
status. -/
def delete_model (modelId : String) (resp : Except Fault (Nat × String)) : RunOut Unit :=
  let hdr := Report.deleteHeader modelId
  let out := api_request "POST" "/model/delete" (some (.obj (.cons "id" (.str modelId) .nil))) resp
  match out.result with
  | .error f => ⟨.error f, [hdr], out.sent⟩
  | .ok (st, _body) =>
    if st = 200 then ⟨.ok (), [hdr, .deleteSuccess], out.sent⟩
    else ⟨.ok (), [hdr, .deleteFailure st _body], out.sent⟩

/-- Arguments of the create subcommand after argparse: positional name,
optional preset choice, optional routes-file path, optional default
model. -/
structure CreateArgs where
  name : String
  preset : Option PresetKey
  routesFile : Option String
  defaultModel : Option String

/-- Python truthiness of an optional string option. -/
def optTruthy : Option String → Bool
  | none => false
  | some s => s != ""

def errEitherRequired : String := "❌ Either --preset or --routes is required"

def errDefaultRequired : String := "❌ --default is required when using --routes"

def dropBool (r : RunOut Bool) : RunOut Unit :=
  ⟨r.result.map (fun _ => ()), r.reports, r.calls⟩

/-- Model of the create branch of main: the preset branch runs first when
the preset option is truthy, then the routes branch (which requires a
truthy default model before reading the file), and otherwise a usage
error is printed with no operation attempted. The readRoutes oracle
stands for reading and parsing the routes file. -/
def runCreate (args : CreateArgs) (readRoutes : String → JsonList) (resp : Except Fault (Nat × String)) : RunOut Unit :=
  match args.preset with
  | some k =>
    dropBool (create_router args.name (PRESETS k).routes (PRESETS k).defaultModel resp)
  | none =>
    match args.routesFile with
    | some path =>
      if path = "" then ⟨.ok (), [.usageError errEitherRequired], []⟩
      else
        match args.defaultModel with
        | none => ⟨.ok (), [.usageError errDefaultRequired], []⟩
        | some d =>
          if d = "" then ⟨.ok (), [.usageError errDefaultRequired], []⟩
          else dropBool (create_router args.name (readRoutes path) d resp)
    | none => ⟨.ok (), [.usageError errEitherRequired], []⟩

/-! ### Helper measures and predicates for the roundtrip development. -/

/-- The continuation after a serialized number must not start with a digit
or a dot, so that the number parse stops exactly at the boundary. Every
continuation the serializer produces satisfies this. -/
def numBoundary : List Char → Prop
  | [] => True
  | c :: _ => c.isDigit = false ∧ c ≠ '.'

/-- The head of the list is not a decimal digit. -/
def headNotDigit : List Char → Prop
  | [] => True
  | c :: _ => c.isDigit = false

mutual

/-- Fuel consumed by parseVal on a serialized value. -/
def costV : Json → Nat
  | .arr l => 1 + costL l
  | .obj fs => 1 + costF fs
  | .null => 1
  | .bool _ => 1
  | .num _ _ => 1
  | .str _ => 1
termination_by structural j => j

/-- Fuel consumed by parseItems on a serialized array body. -/
def costL : JsonList → Nat
  | .nil => 0
  | .cons x xs => 1 + costV x + costL xs
termination_by structural l => l

/-- Fuel consumed by parseFields on a serialized object body. -/
def costF : JsonFields → Nat
  | .nil => 0
  | .cons _ v fs => 1 + costV v + costF fs
termination_by structural l => l

end


/-! ### Character, hexadecimal and string escape lemmas. -/

theorem char_valid_ranges (c : Char) :
    c.toNat < 0xd800 ∨ (0xe000 ≤ c.toNat ∧ c.toNat < 0x110000) := c.valid

theorem hexVal_hexDig (d : Nat) (h : d < 16) : hexVal (hexDig d) = some d := by
  interval_cases d <;> rfl

theorem hex4_toHex4 (n : Nat) (h : n < 0x10000) :
    hex4 (hexDig (n / 4096 % 16)) (hexDig (n / 256 % 16)) (hexDig (n / 16 % 16)) (hexDig (n % 16))
      = some n := by
  simp only [hex4, hexVal_hexDig (n / 4096 % 16) (by omega), hexVal_hexDig (n / 256 % 16) (by omega),
    hexVal_hexDig (n / 16 % 16) (by omega), hexVal_hexDig (n % 16) (by omega), Option.some.injEq]
  omega

theorem parseEsc_u (n : Nat) (h : n < 0x10000) (hg : n < 0xd800 ∨ 0xe000 ≤ n)
    (rest : List Char) :
    parseEsc ('u' :: (toHex4 n ++ rest)) = some (Char.ofNat n, rest) := by
  simp only [toHex4, List.cons_append, List.nil_append]
  rw [parseEsc]
  rw [hex4_toHex4 n h]
  show (if n < 0xd800 ∨ 0xe000 ≤ n then some (Char.ofNat n, rest) else _) = _
  rw [if_pos hg]

theorem parseEsc_surrogate (n : Nat) (hlo : 0x10000 ≤ n) (hhi : n < 0x110000)
    (rest : List Char) :
    parseEsc ('u' :: (toHex4 (0xd800 + (n - 0x10000) / 0x400) ++
        ('\\' :: 'u' :: (toHex4 (0xdc00 + (n - 0x10000) % 0x400) ++ rest))))
      = some (Char.ofNat n, rest) := by
  simp only [toHex4, List.cons_append, List.nil_append]
  rw [parseEsc]
  rw [hex4_toHex4 _ (by omega)]
  show (if 0xd800 + (n - 0x10000) / 0x400 < 0xd800 ∨ 0xe000 ≤ 0xd800 + (n - 0x10000) / 0x400
      then _ else _) = _
  rw [if_neg (by omega), if_pos (by omega)]
  dsimp only
  rw [if_pos (show ('\\' : Char) = '\\' ∧ ('u' : Char) = 'u' from ⟨rfl, rfl⟩)]
  rw [hex4_toHex4 _ (by omega)]
  show (if 0xdc00 ≤ 0xdc00 + (n - 0x10000) % 0x400 ∧ 0xdc00 + (n - 0x10000) % 0x400 < 0xe000
      then _ else _) = _
  rw [if_pos (by constructor <;> omega)]
  have harg :
      0x10000 + (0xd800 + (n - 0x10000) / 0x400 - 0xd800) * 0x400 +
        (0xdc00 + (n - 0x10000) % 0x400 - 0xdc00) = n := by omega
  rw [harg]

theorem parseStrF_escapeChar (c : Char) (fuel : Nat) (rest : List Char) :
    parseStrF (fuel + 1) (escapeChar c ++ rest)
      = (parseStrF fuel rest).map (fun p => (c :: p.1, p.2)) := by
  by_cases h1 : c = '"'
  · subst h1; rfl
  by_cases h2 : c = '\\'
  · subst h2; rfl
  by_cases h3 : c = '\x08'
  · subst h3; rfl
  by_cases h4 : c = '\t'
  · subst h4; rfl
  by_cases h5 : c = '\n'
  · subst h5; rfl
  by_cases h6 : c = '\x0c'
  · subst h6; rfl
  by_cases h7 : c = '\r'
  · subst h7; rfl
  rw [escapeChar, if_neg h1, if_neg h2, if_neg h3, if_neg h4, if_neg h5, if_neg h6, if_neg h7]
  by_cases h8 : c.toNat < 0x20
  · rw [if_pos h8]
    show parseStrF (fuel + 1) ('\\' :: ('u' :: (toHex4 c.toNat ++ rest))) = _
    rw [parseStrF]
    rw [if_neg (show ¬('\\' : Char) = '"' by decide), if_pos (show ('\\' : Char) = '\\' from rfl)]
    rw [parseEsc_u c.toNat (by omega) (Or.inl (by omega))]
    rw [Char.ofNat_toNat]
  · rw [if_neg h8]
    by_cases h9 : c.toNat ≤ 0x7e
    · rw [if_pos h9]
      show parseStrF (fuel + 1) (c :: rest) = _
      rw [parseStrF, if_neg h1, if_neg h2, if_pos (by omega)]
    · rw [if_neg h9]
      by_cases h10 : c.toNat < 0x10000
      · rw [if_pos h10]
        have hg : c.toNat < 0xd800 ∨ 0xe000 ≤ c.toNat := by
          rcases char_valid_ranges c with h | h
          · exact Or.inl h
          · exact Or.inr h.1
        show parseStrF (fuel + 1) ('\\' :: ('u' :: (toHex4 c.toNat ++ rest))) = _
        rw [parseStrF]
        rw [if_neg (show ¬('\\' : Char) = '"' by decide), if_pos (show ('\\' : Char) = '\\' from rfl)]
        rw [parseEsc_u c.toNat (by omega) hg]
        rw [Char.ofNat_toNat]
      · rw [if_neg h10]
        have hv : c.toNat < 0x110000 := by
          rcases char_valid_ranges c with h | h
          · omega
          · exact h.2
        have ht : 0x10000 ≤ c.toNat := by omega
        show parseStrF (fuel + 1)
            ('\\' :: ('u' :: (toHex4 (0xd800 + (c.toNat - 0x10000) / 0x400) ++
              ('\\' :: 'u' :: (toHex4 (0xdc00 + (c.toNat - 0x10000) % 0x400) ++ rest))))) = _
        rw [parseStrF]
        rw [if_neg (show ¬('\\' : Char) = '"' by decide), if_pos (show ('\\' : Char) = '\\' from rfl)]
        rw [parseEsc_surrogate c.toNat ht hv]
        rw [Char.ofNat_toNat]

theorem parseStrF_escapeStr (s : List Char) (rest : List Char) (extra : Nat) :
    parseStrF (s.length + extra + 1) (escapeStr s ++ '"' :: rest) = some (s, rest) := by
  induction s generalizing extra with
  | nil => rfl
  | cons c s ih =>
    have hlen : (c :: s).length + extra + 1 = (s.length + extra + 1) + 1 := by
      simp [List.length_cons]; omega
    rw [hlen, escapeStr, List.append_assoc, parseStrF_escapeChar, ih extra]
    rfl

theorem escapeChar_length_pos (c : Char) : 1 ≤ (escapeChar c).length := by
  rw [escapeChar]
  split_ifs <;> simp [toHex4]

theorem escapeStr_length_ge (s : List Char) : s.length ≤ (escapeStr s).length := by
  induction s with
  | nil => simp [escapeStr]
  | cons c s ih =>
    rw [escapeStr, List.length_append, List.length_cons]
    have := escapeChar_length_pos c
    omega

theorem parseStr_escapeStr (s : List Char) (rest : List Char) :
    parseStrContent (escapeStr s ++ '"' :: rest) = some (s, rest) := by
  rw [parseStrContent]
  have h := escapeStr_length_ge s
  have hlen : (escapeStr s ++ '"' :: rest).length + 1
      = s.length + ((escapeStr s).length - s.length + rest.length + 1) + 1 := by
    simp [List.length_append, List.length_cons]
    omega
  rw [hlen, parseStrF_escapeStr]

/-! ### Decimal digit and number lemmas. -/

theorem digitsLE_eq (fuel n : Nat) (h : n ≤ fuel) : digitsLE fuel n = Nat.digits 10 n := by
  induction fuel generalizing n with
  | zero =>
    have : n = 0 := by omega
    subst this
    simp [digitsLE]
  | succ f ih =>
    by_cases hn : n = 0
    · subst hn; simp [digitsLE]
    · rw [digitsLE, if_neg hn, Nat.digits_def' (by norm_num : (1:Nat) < 10) (Nat.pos_of_ne_zero hn),
        ih (n / 10) (by omega)]

theorem foldl_digits_reverse (L : List Nat) (acc : Nat) :
    List.foldl (fun a d => 10 * a + d) acc L.reverse = acc * 10 ^ L.length + Nat.ofDigits 10 L := by
  induction L generalizing acc with
  | nil => simp
  | cons d L ih =>
    rw [List.reverse_cons, List.foldl_append, ih, Nat.ofDigits_cons, List.length_cons]
    simp only [List.foldl_cons, List.foldl_nil, pow_succ]
    ring

theorem natDigitsBE_val (n : Nat) : digitsVal (natDigitsBE n) = n := by
  by_cases h : n = 0
  · subst h; rfl
  · rw [natDigitsBE, if_neg h, digitsLE_eq n n le_rfl, digitsVal, foldl_digits_reverse]
    simp [Nat.ofDigits_digits]

theorem natDigitsBE_lt (n : Nat) : ∀ d ∈ natDigitsBE n, d < 10 := by
  intro d hd
  by_cases h : n = 0
  · subst h
    simp [natDigitsBE] at hd
    omega
  · rw [natDigitsBE, if_neg h, digitsLE_eq n n le_rfl, List.mem_reverse] at hd
    exact Nat.digits_lt_base (by norm_num) hd

theorem natDigitsBE_ne_nil (n : Nat) : natDigitsBE n ≠ [] := by
  by_cases h : n = 0
  · subst h; simp [natDigitsBE]
  · rw [natDigitsBE, if_neg h]
    simp only [ne_eq, List.reverse_eq_nil_iff]
    rw [digitsLE_eq n n le_rfl]
    exact Nat.digits_ne_nil_iff_ne_zero.mpr h

theorem natDigitsBE_len_le (n k : Nat) (h : n < 10 ^ k) (hk : 1 ≤ k) :
    (natDigitsBE n).length ≤ k := by
  by_cases h0 : n = 0
  · subst h0; simp [natDigitsBE]; omega
  · rw [natDigitsBE, if_neg h0, digitsLE_eq n n le_rfl, List.length_reverse,
      Nat.digits_len 10 n (by norm_num) h0]
    have := (Nat.lt_pow_iff_log_lt (by norm_num : (1:Nat) < 10) h0).mp h
    omega

theorem digitChar_isDigit (d : Nat) (h : d < 10) : (digitChar d).isDigit = true := by
  interval_cases d <;> rfl

theorem digitChar_toNat (d : Nat) (h : d < 10) : (digitChar d).toNat = 48 + d := by
  interval_cases d <;> rfl

theorem takeDigits_map (ds : List Nat) (rest : List Char) (hds : ∀ d ∈ ds, d < 10)
    (hrest : headNotDigit rest) :
    takeDigits (ds.map digitChar ++ rest) = (ds, rest) := by
  induction ds with
  | nil =>
    simp only [List.map_nil, List.nil_append]
    cases rest with
    | nil => rfl
    | cons c t =>
      rw [takeDigits]
      rw [headNotDigit] at hrest
      rw [hrest]
      simp
  | cons d ds ih =>
    have hd : d < 10 := hds d (List.mem_cons_self d ds)
    simp only [List.map_cons, List.cons_append]
    rw [takeDigits, digitChar_isDigit d hd]
    simp only [if_true]
    rw [ih (fun x hx => hds x (List.mem_cons_of_mem d hx))]
    rw [digitChar_toNat d hd]
    simp

theorem digitsVal_replicate_zero (z : Nat) (ds : List Nat) :
    digitsVal (List.replicate z 0 ++ ds) = digitsVal ds := by
  rw [digitsVal, digitsVal, List.foldl_append]
  congr 1
  induction z with
  | zero => rfl
  | succ z ih => rw [List.replicate_succ, List.foldl_cons]; simpa using ih

theorem numBoundary_headNotDigit (rest : List Char) (h : numBoundary rest) :
    headNotDigit rest := by
  cases rest with
  | nil => trivial
  | cons c t => exact h.1

theorem parseNumAbs_print (s k : Nat) (rest : List Char) (hb : numBoundary rest) :
    parseNumAbs (printNat (s / 10 ^ k) ++
        ((if k = 0 then [] else '.' :: printFrac k (s % 10 ^ k)) ++ rest))
      = some ((s, k), rest) := by
  by_cases hk : k = 0
  · subst hk
    simp only [pow_zero, Nat.div_one, if_pos, List.nil_append]
    rw [printNat, parseNumAbs,
      takeDigits_map _ _ (natDigitsBE_lt s) (numBoundary_headNotDigit rest hb)]
    dsimp only
    rw [if_neg (natDigitsBE_ne_nil s)]
    cases rest with
    | nil => rw [natDigitsBE_val]
    | cons c t =>
      dsimp only
      rw [if_neg hb.2, natDigitsBE_val]
  · rw [if_neg hk]
    have hfp : s % 10 ^ k < 10 ^ k := Nat.mod_lt s (by positivity)
    have hlenle : (natDigitsBE (s % 10 ^ k)).length ≤ k :=
      natDigitsBE_len_le _ k hfp (by omega)
    simp only [List.cons_append]
    rw [printNat, parseNumAbs,
      takeDigits_map _ _ (natDigitsBE_lt (s / 10 ^ k)) (by exact (by decide : ('.' : Char).isDigit = false))]
    dsimp only
    rw [if_neg (natDigitsBE_ne_nil (s / 10 ^ k))]
    rw [if_pos rfl, printFrac]
    rw [takeDigits_map _ _ ?hlt (numBoundary_headNotDigit rest hb)]
    case hlt =>
      intro d hd
      rcases List.mem_append.mp hd with h | h
      · have := List.eq_of_mem_replicate h
        omega
      · exact natDigitsBE_lt _ d h
    dsimp only
    rw [if_neg ?hne]
    case hne =>
      intro h
      exact natDigitsBE_ne_nil (s % 10 ^ k) (List.append_eq_nil.mp h).2
    have hlen : (List.replicate (k - (natDigitsBE (s % 10 ^ k)).length) 0
        ++ natDigitsBE (s % 10 ^ k)).length = k := by
      rw [List.length_append, List.length_replicate]
      omega
    rw [hlen, digitsVal_replicate_zero, natDigitsBE_val, natDigitsBE_val]
    have hs := Nat.div_add_mod s (10 ^ k)
    rw [Nat.mul_comm] at hs
    rw [hs]

theorem parseNum_dumpsNum (m : Int) (k : Nat) (rest : List Char) (hb : numBoundary rest) :
    parseNum (dumpsNum m k ++ rest) = some (Json.num m k, rest) := by
  rw [dumpsNum]
  by_cases hm : m < 0
  · rw [if_pos hm]
    simp only [List.cons_append, List.nil_append, List.append_assoc]
    rw [parseNum, if_pos rfl, parseNumAbs_print m.natAbs k rest hb]
    have hneg : -(m.natAbs : Int) = m := by omega
    simp only [Option.map_some']
    rw [hneg]
  · rw [if_neg hm]
    simp only [List.nil_append, List.append_assoc]
    obtain ⟨d, ds, hds⟩ := List.exists_cons_of_ne_nil (natDigitsBE_ne_nil (m.natAbs / 10 ^ k))
    have hd10 : d < 10 := natDigitsBE_lt _ d (by rw [hds]; exact List.mem_cons_self d ds)
    rw [printNat, hds]
    simp only [List.map_cons, List.cons_append]
    rw [parseNum]
    rw [if_neg ?hnd]
    case hnd =>
      intro h
      have h2 := congrArg Char.toNat h
      rw [digitChar_toNat d hd10] at h2
      have h3 : ('-' : Char).toNat = 45 := rfl
      omega
    rw [← List.cons_append, ← List.map_cons, ← hds, ← printNat,
      parseNumAbs_print m.natAbs k rest hb]
    have hpos : (m.natAbs : Int) = m := by omega
    simp only [Option.map_some']
    rw [hpos]

/-! ### Shape of serializer output and whitespace lemmas. -/

theorem skipWs_cons (c : Char) (t : List Char) (h : 33 ≤ c.toNat) : skipWs (c :: t) = c :: t := by
  rw [skipWs, if_neg (by omega)]

theorem skipWs_space (t : List Char) : skipWs (' ' :: t) = skipWs t := by
  rw [skipWs, if_pos (Or.inl (by decide))]

theorem keyPart_append (k : String) (z : List Char) :
    keyPart k ++ z = '"' :: (escapeStr k.data ++ ('"' :: ':' :: ' ' :: z)) := by
  rw [keyPart]
  simp only [List.cons_append, List.append_assoc, List.singleton_append, List.nil_append]

theorem numBoundary_dumpsItems (xs : JsonList) (rest : List Char) :
    numBoundary (dumpsItems xs ++ rest) := by
  cases xs with
  | nil => exact ⟨by decide, by decide⟩
  | cons y ys => exact ⟨by decide, by decide⟩

theorem numBoundary_dumpsFields (fs : JsonFields) (rest : List Char) :
    numBoundary (dumpsFields fs ++ rest) := by
  cases fs with
  | nil => exact ⟨by decide, by decide⟩
  | cons k v fs2 => exact ⟨by decide, by decide⟩

theorem dumpsNum_head (m : Int) (k : Nat) :
    ∃ c t, dumpsNum m k = c :: t ∧ 45 ≤ c.toNat ∧ c.toNat ≤ 57 ∧
      c.toNat ≠ 46 ∧ c.toNat ≠ 47 := by
  rw [dumpsNum]
  by_cases hm : m < 0
  · rw [if_pos hm]
    exact ⟨'-', _, rfl, by decide, by decide, by decide, by decide⟩
  · rw [if_neg hm]
    obtain ⟨d, ds, hds⟩ := List.exists_cons_of_ne_nil (natDigitsBE_ne_nil (m.natAbs / 10 ^ k))
    have hd10 : d < 10 := natDigitsBE_lt _ d (by rw [hds]; exact List.mem_cons_self d ds)
    rw [printNat, hds]
    refine ⟨digitChar d, _, rfl, ?_, ?_, ?_, ?_⟩ <;> rw [digitChar_toNat d hd10] <;> omega

theorem dumpsV_head (j : Json) :
    ∃ c t, dumpsV j = c :: t ∧ 33 ≤ c.toNat ∧ c.toNat ≤ 123 ∧
      c.toNat ≠ 93 ∧ c.toNat ≠ 125 := by
  cases j with
  | null => exact ⟨'n', _, rfl, by decide⟩
  | bool b => cases b with
    | true => exact ⟨'t', _, rfl, by decide⟩
    | false => exact ⟨'f', _, rfl, by decide⟩
  | num m k =>
    obtain ⟨c, t, hct, h1, h2, h3, h4⟩ := dumpsNum_head m k
    exact ⟨c, t, hct, by omega⟩
  | str s => exact ⟨'"', _, rfl, by decide⟩
  | arr l => cases l with
    | nil => exact ⟨'[', _, rfl, by decide⟩
    | cons x xs => exact ⟨'[', _, rfl, by decide⟩
  | obj fs => cases fs with
    | nil => exact ⟨'\x7b', _, rfl, by decide⟩
    | cons k v fs2 => exact ⟨'\x7b', _, rfl, by decide⟩

/-! ### The roundtrip: parsing recovers every serialized value. -/

mutual

theorem parseVal_dumps (j : Json) : ∀ (extra : Nat) (rest : List Char), numBoundary rest →
    parseVal (costV j + extra) (dumpsV j ++ rest) = some (j, rest) := by
  cases j with
  | null =>
    intro extra rest hb
    have h1 : costV Json.null + extra = extra + 1 := by simp [costV]; omega
    rw [h1]
    rfl
  | bool b =>
    cases b with
    | true =>
      intro extra rest hb
      have h1 : costV (Json.bool true) + extra = extra + 1 := by simp [costV]; omega
      rw [h1]
      rfl
    | false =>
      intro extra rest hb
      have h1 : costV (Json.bool false) + extra = extra + 1 := by simp [costV]; omega
      rw [h1]
      rfl
  | num m k =>
    intro extra rest hb
    have h1 : costV (Json.num m k) + extra = extra + 1 := by simp [costV]; omega
    rw [h1]
    have hd : dumpsV (Json.num m k) = dumpsNum m k := rfl
    rw [hd]
    obtain ⟨c, t, hct, hc1, hc2, hc3, hc4⟩ := dumpsNum_head m k
    rw [hct]
    simp only [List.cons_append]
    rw [parseVal]
    try dsimp only
    rw [if_neg (fun h => by subst h; exact absurd hc2 (by decide)),
      if_neg (fun h => by subst h; exact absurd hc2 (by decide)),
      if_neg (fun h => by subst h; exact absurd hc2 (by decide)),
      if_neg (fun h => by subst h; exact absurd hc1 (by decide)),
      if_neg (fun h => by subst h; exact absurd hc2 (by decide)),
      if_neg (fun h => by subst h; exact absurd hc2 (by decide))]
    rw [← List.cons_append, ← hct, parseNum_dumpsNum m k rest hb]
  | str s =>
    intro extra rest hb
    have h1 : costV (Json.str s) + extra = extra + 1 := by simp [costV]; omega
    rw [h1]
    have hd : dumpsV (Json.str s) = '"' :: (escapeStr s.data ++ ['"']) := rfl
    rw [hd]
    simp only [List.cons_append, List.append_assoc, List.singleton_append, List.nil_append]
    rw [parseVal]
    try dsimp only
    rw [if_neg (by decide), if_neg (by decide), if_neg (by decide), if_pos rfl,
      parseStr_escapeStr s.data rest]
    rfl
  | arr l =>
    cases l with
    | nil =>
      intro extra rest hb
      have h1 : costV (Json.arr .nil) + extra = (costL .nil + extra) + 1 := by
        simp [costV]; omega
      rw [h1]
      rfl
    | cons x xs =>
      intro extra rest hb
      have h1 : costV (Json.arr (.cons x xs)) + extra
          = (costL (JsonList.cons x xs) + extra) + 1 := by
        simp [costV]; omega
      rw [h1]
      have hd : dumpsV (Json.arr (.cons x xs)) = '[' :: (dumpsV x ++ dumpsItems xs) := rfl
      rw [hd]
      simp only [List.cons_append, List.append_assoc]
      rw [parseVal]
      try dsimp only
      rw [if_neg (by decide), if_neg (by decide), if_neg (by decide), if_neg (by decide),
        if_pos rfl]
      obtain ⟨c, t, hct, hc1, hc2, hc3, hc4⟩ := dumpsV_head x
      rw [hct]
      simp only [List.cons_append]
      rw [skipWs_cons c _ (by omega)]
      try dsimp only
      rw [if_neg (fun h => by subst h; exact absurd hc3 (by decide))]
      rw [← List.cons_append, ← hct,
        parseItems_dumps (JsonList.cons x xs) extra rest hb x xs rfl]
      rfl
  | obj fs =>
    cases fs with
    | nil =>
      intro extra rest hb
      have h1 : costV (Json.obj .nil) + extra = (costF .nil + extra) + 1 := by
        simp [costV]; omega
      rw [h1]
      rfl
    | cons k v fs2 =>
      intro extra rest hb
      have h1 : costV (Json.obj (.cons k v fs2)) + extra
          = (costF (JsonFields.cons k v fs2) + extra) + 1 := by
        simp [costV]; omega
      rw [h1]
      have hd : dumpsV (Json.obj (.cons k v fs2))
          = '\x7b' :: (keyPart k ++ (dumpsV v ++ dumpsFields fs2)) := rfl
      rw [hd]
      simp only [List.cons_append, List.append_assoc]
      rw [keyPart_append]
      rw [parseVal]
      try dsimp only
      rw [if_neg (by decide), if_neg (by decide), if_neg (by decide), if_neg (by decide),
        if_neg (by decide), if_pos rfl]
      rw [skipWs_cons '"' _ (by decide)]
      try dsimp only
      rw [if_neg (by decide)]
      rw [← keyPart_append]
      rw [parseFields_dumps (JsonFields.cons k v fs2) extra rest hb k v fs2 rfl]
      rfl

theorem parseItems_dumps (l : JsonList) : ∀ (extra : Nat) (rest : List Char), numBoundary rest →
    ∀ (x : Json) (xs : JsonList), l = JsonList.cons x xs →
      parseItems (costL l + extra) (dumpsV x ++ (dumpsItems xs ++ rest)) = some (l, rest) := by
  intro extra rest hb x xs hl
  subst hl
  have h1 : costL (JsonList.cons x xs) + extra = (costV x + (costL xs + extra)) + 1 := by
    simp [costL]; omega
  rw [h1, parseItems]
  rw [parseVal_dumps x (costL xs + extra) (dumpsItems xs ++ rest) (numBoundary_dumpsItems xs rest)]
  try dsimp only
  cases xs with
  | nil => rfl
  | cons y ys =>
    have hd : dumpsItems (JsonList.cons y ys) = ',' :: ' ' :: (dumpsV y ++ dumpsItems ys) := rfl
    rw [hd]
    simp only [List.cons_append, List.append_assoc]
    rw [skipWs_cons ',' _ (by decide)]
    try dsimp only
    rw [if_neg (by decide), if_pos rfl]
    rw [skipWs_space]
    obtain ⟨c, t, hct, hc1, hc2, hc3, hc4⟩ := dumpsV_head y
    rw [hct]
    simp only [List.cons_append]
    rw [skipWs_cons c _ (by omega)]
    rw [← List.cons_append, ← hct]
    have h2 : costV x + (costL (JsonList.cons y ys) + extra)
        = costL (JsonList.cons y ys) + (costV x + extra) := by omega
    rw [h2, parseItems_dumps (JsonList.cons y ys) (costV x + extra) rest hb y ys rfl]

theorem parseFields_dumps (fl : JsonFields) : ∀ (extra : Nat) (rest : List Char), numBoundary rest →
    ∀ (k : String) (v : Json) (fs : JsonFields), fl = JsonFields.cons k v fs →
      parseFields (costF fl + extra) (keyPart k ++ (dumpsV v ++ (dumpsFields fs ++ rest)))
        = some (fl, rest) := by
  intro extra rest hb k v fs hl
  subst hl
  have h1 : costF (JsonFields.cons k v fs) + extra = (costV v + (costF fs + extra)) + 1 := by
    simp [costF]; omega
  rw [h1]
  rw [keyPart_append]
  rw [parseFields]
  try dsimp only
  rw [if_pos rfl]
  rw [parseStr_escapeStr k.data]
  try dsimp only
  rw [skipWs_cons ':' _ (by decide)]
  try dsimp only
  rw [if_pos rfl]
  rw [skipWs_space]
  obtain ⟨c, t, hct, hc1, hc2, hc3, hc4⟩ := dumpsV_head v
  rw [hct]
  simp only [List.cons_append]
  rw [skipWs_cons c _ (by omega)]
  rw [← List.cons_append, ← hct]
  rw [parseVal_dumps v (costF fs + extra) (dumpsFields fs ++ rest) (numBoundary_dumpsFields fs rest)]
  try dsimp only
  cases fs with
  | nil => rfl
  | cons k2 v2 fs2 =>
    have hd : dumpsFields (JsonFields.cons k2 v2 fs2)
        = ',' :: ' ' :: (keyPart k2 ++ (dumpsV v2 ++ dumpsFields fs2)) := rfl
    rw [hd]
    simp only [List.cons_append, List.append_assoc]
    rw [skipWs_cons ',' _ (by decide)]
    try dsimp only
    rw [if_neg (by decide), if_pos rfl]
    rw [skipWs_space]
    have hkp : skipWs (keyPart k2 ++ (dumpsV v2 ++ (dumpsFields fs2 ++ rest)))
        = keyPart k2 ++ (dumpsV v2 ++ (dumpsFields fs2 ++ rest)) := by
      rw [keyPart_append]
      exact skipWs_cons '"' _ (by decide)
    rw [hkp]
    have h2 : costV v + (costF (JsonFields.cons k2 v2 fs2) + extra)
        = costF (JsonFields.cons k2 v2 fs2) + (costV v + extra) := by omega
    rw [h2, parseFields_dumps (JsonFields.cons k2 v2 fs2) (costV v + extra) rest hb k2 v2 fs2 rfl]

end

/-! ### The serializer is long enough for the parser fuel. -/

mutual

theorem costV_le (j : Json) : costV j ≤ (dumpsV j).length := by
  cases j with
  | null =>
    have h : (dumpsV Json.null).length = 4 := rfl
    simp [costV, h]
  | bool b =>
    have ht : (dumpsV (Json.bool true)).length = 4 := rfl
    have hf : (dumpsV (Json.bool false)).length = 5 := rfl
    cases b <;> simp [costV, ht, hf]
  | num m k =>
    obtain ⟨c, t, hct, _, _, _, _⟩ := dumpsNum_head m k
    have hd : dumpsV (Json.num m k) = dumpsNum m k := rfl
    rw [costV, hd, hct]
    simp
  | str s => simp [costV, dumpsV]
  | arr l =>
    cases l with
    | nil => simp [costV, costL, dumpsV]
    | cons x xs =>
      have h1 := costV_le x
      have h2 := costL_le xs
      rw [costV, costL]
      have hd : dumpsV (Json.arr (.cons x xs)) = '[' :: (dumpsV x ++ dumpsItems xs) := rfl
      rw [hd]
      simp only [List.length_cons, List.length_append]
      omega
  | obj fs =>
    cases fs with
    | nil => simp [costV, costF, dumpsV]
    | cons k v fs2 =>
      have h1 := costV_le v
      have h2 := costF_le fs2
      rw [costV, costF]
      have hd : dumpsV (Json.obj (.cons k v fs2))
          = '\x7b' :: (keyPart k ++ (dumpsV v ++ dumpsFields fs2)) := rfl
      rw [hd]
      simp only [List.length_cons, List.length_append]
      omega

theorem costL_le (l : JsonList) : costL l + 1 ≤ (dumpsItems l).length := by
  cases l with
  | nil => simp [costL, dumpsItems]
  | cons x xs =>
    have h1 := costV_le x
    have h2 := costL_le xs
    rw [costL]
    have hd : dumpsItems (JsonList.cons x xs) = ',' :: ' ' :: (dumpsV x ++ dumpsItems xs) := rfl
    rw [hd]
    simp only [List.length_cons, List.length_append]
    omega

theorem costF_le (fs : JsonFields) : costF fs + 1 ≤ (dumpsFields fs).length := by
  cases fs with
  | nil => simp [costF, dumpsFields]
  | cons k v fs2 =>
    have h1 := costV_le v
    have h2 := costF_le fs2
    rw [costF]
    have hd : dumpsFields (JsonFields.cons k v fs2)
        = ',' :: ' ' :: (keyPart k ++ (dumpsV v ++ dumpsFields fs2)) := rfl
    rw [hd]
    simp only [List.length_cons, List.length_append]
    omega

end

/-- The roundtrip at the top level: json.loads recovers every value the
tool serializes with json.dumps. -/
theorem parse_dumps (j : Json) : parseJson (dumps j) = some j := by
  obtain ⟨c, t, hct, hc1, _, _, _⟩ := dumpsV_head j
  have hsw : skipWs (dumpsV j) = dumpsV j := by
    rw [hct]; exact skipWs_cons c t (by omega)
  have hcost := costV_le j
  have h := parseVal_dumps j ((dumpsV j).length + 1 - costV j) [] trivial
  rw [List.append_nil] at h
  have hfuel : costV j + ((dumpsV j).length + 1 - costV j) = (dumpsV j).length + 1 := by omega
  rw [hfuel] at h
  have hdata : (dumps j).data = dumpsV j := rfl
  rw [parseJson, hdata, hsw, h]
  rfl

/-! ### Behaviour of the HTTP client and the operations. -/

theorem api_request_ok (method path : String) (body : Option Json) (st : Nat) (text : String) :
    api_request method path body (.ok (st, text))
      = ⟨.ok (st, decodeBody text), [.opened, .closed], [⟨method, path, body⟩]⟩ := by
  cases hp : parseJson text <;> simp [api_request, decodeBody, hp]

theorem renderErr_le (j : Json) : (renderErr j).length ≤ 500 := by
  rw [renderErr, List.length_take]
  exact Nat.min_le_left _ _

/-! ### The claims. -/

/-- C1: for every list of route objects R, every default model string D and
every router name, the creation request body has an auto_router_config
field holding a JSON string that parses back to the object with single key
routes and value R with order preserved, and its auto_router_default_model
field equals D. -/
theorem c1_create_config_roundtrip (routes : JsonList) (defaultModel name : String) :
    objGet2 (createPayload name routes defaultModel) "litellm_params" "auto_router_config"
        = some (Json.str (dumps (Json.obj (.cons "routes" (.arr routes) .nil)))) ∧
    parseJson (dumps (Json.obj (.cons "routes" (.arr routes) .nil)))
        = some (Json.obj (.cons "routes" (.arr routes) .nil)) ∧
    objGet2 (createPayload name routes defaultModel) "litellm_params" "auto_router_default_model"
        = some (Json.str defaultModel) :=
  ⟨rfl, parse_dumps _, rfl⟩

/-- C2: for every response the server returns, the client returns the
status paired with the decoded JSON body when the body parses, and the
status paired with a raw wrapper object when it does not, never raising,
for any status code. -/
theorem c2_decode_policy (method path : String) (body : Option Json) (st : Nat) (text : String) :
    (∀ j, parseJson text = some j →
      (api_request method path body (.ok (st, text))).result = .ok (st, j)) ∧
    (parseJson text = none →
      (api_request method path body (.ok (st, text))).result
        = .ok (st, Json.obj (.cons "raw" (.str text) .nil))) := by
  constructor
  · intro j hj
    simp [api_request, hj]
  · intro hn
    simp [api_request, hn]

theorem c2_witness :
    parseJson "Bad Gateway" = none ∧
    (api_request "GET" "/model/info" none (.ok (502, "Bad Gateway"))).result
      = .ok (502, Json.obj (.cons "raw" (.str "Bad Gateway") .nil)) :=
  ⟨rfl, (c2_decode_policy "GET" "/model/info" none 502 "Bad Gateway").2 rfl⟩

/-- C9: for every request of the HTTP client, the connection opened for
that request is closed on every exit path: successful decode, decode
fallback, and a fault while sending or reading. -/
theorem c9_connection_closed (method path : String) (body : Option Json)
    (resp : Except Fault (Nat × String)) :
    (api_request method path body resp).events = [ConnEvent.opened, ConnEvent.closed] := by
  cases resp with
  | error f => rfl
  | ok p =>
    obtain ⟨st, text⟩ := p
    cases hp : parseJson text with
    | none => simp [api_request, hp]
    | some j => simp [api_request, hp]

/-- C4 (counterexample input): on status 200 with the valid-JSON
non-object body of an empty array, the identifier lookup raises, so
create_router does not return True at status 200, refuting the claim as
stated. -/
theorem c4_counterexample :
    (create_router "X" .nil "d" (.ok (200, "[]"))).result = .error Fault.attrError ∧
    ¬ (create_router "X" .nil "d" (.ok (200, "[]"))).result = .ok true := by
  refine ⟨rfl, ?_⟩
  intro h
  rw [show (create_router "X" .nil "d" (.ok (200, "[]"))).result = .error Fault.attrError
    from rfl] at h
  exact Except.noConfusion h

/-- C4 (amended): for every response received by create_router whose
decoded body is a JSON object (which includes the raw-fallback wrapper
produced for non-JSON bodies), the returned boolean is true exactly when
the status is 200; when the status is 200 and the decoded body is not an
object, the identifier lookup raises and no boolean is returned; on any
other status it returns false without raising, reporting the status code
and a rendering of the error body of at most 500 characters. -/
theorem c4_create_router_status (name : String) (routes : JsonList) (defaultModel : String)
    (st : Nat) (text : String) :
    ((∃ fs, decodeBody text = Json.obj fs) →
      ((create_router name routes defaultModel (.ok (st, text))).result = .ok true ↔ st = 200)) ∧
    (st ≠ 200 →
      (create_router name routes defaultModel (.ok (st, text))).result = .ok false ∧
      (create_router name routes defaultModel (.ok (st, text))).reports
        = [Report.createHeader name defaultModel (jlength routes),
           Report.createFailure st (renderErr (decodeBody text))] ∧
      (renderErr (decodeBody text)).length ≤ 500) ∧
    (st = 200 → (∀ fs, decodeBody text ≠ Json.obj fs) →
      (create_router name routes defaultModel (.ok (st, text))).result
        = .error Fault.attrError) := by
  by_cases h200 : st = 200
  · subst h200
    refine ⟨?_, fun h => absurd rfl h, ?_⟩
    · rintro ⟨fs, hfs⟩
      simp [create_router, api_request_ok, dictGet, hfs]
    · intro _ hno
      cases hd : decodeBody text with
      | obj fs => exact absurd hd (hno fs)
      | null => simp [create_router, api_request_ok, dictGet, hd]
      | bool b => simp [create_router, api_request_ok, dictGet, hd]
      | num m k => simp [create_router, api_request_ok, dictGet, hd]
      | str v => simp [create_router, api_request_ok, dictGet, hd]
      | arr l => simp [create_router, api_request_ok, dictGet, hd]
  · refine ⟨?_, ?_, fun h => absurd h h200⟩
    · intro _
      simp [create_router, api_request_ok, h200]
    · intro _
      refine ⟨?_, ?_, renderErr_le _⟩ <;> simp [create_router, api_request_ok, h200]

theorem c4_witness :
    (∃ fs, decodeBody "oops" = Json.obj fs) ∧
    ((404 : Nat) ≠ 200) ∧
    ((create_router "X" .nil "d" (.ok (404, "oops"))).result = .ok true ↔ (404 : Nat) = 200) ∧
    (create_router "X" .nil "d" (.ok (404, "oops"))).result = .ok false ∧
    (create_router "X" .nil "d" (.ok (200, "null"))).result = .error Fault.attrError :=
  ⟨⟨JsonFields.cons "raw" (Json.str "oops") JsonFields.nil, rfl⟩,
    by decide,
    (c4_create_router_status "X" .nil "d" 404 "oops").1
      ⟨JsonFields.cons "raw" (Json.str "oops") JsonFields.nil, rfl⟩,
    ((c4_create_router_status "X" .nil "d" 404 "oops").2.1 (by decide)).1,
    (c4_create_router_status "X" .nil "d" 200 "null").2.2 rfl
      (by
        intro fs h
        rw [show decodeBody "null" = Json.null from rfl] at h
        exact Json.noConfusion h)⟩

/-- C7: for every model identifier, delete_model issues exactly one POST
to /model/delete with the identifier in an id field, and on any non-200
status it reports failure with that status and does not raise. -/
theorem c7_delete (modelId : String) (st : Nat) (text : String) :
    (delete_model modelId (.ok (st, text))).calls
        = [⟨"POST", "/model/delete", some (Json.obj (.cons "id" (.str modelId) .nil))⟩] ∧
    (st ≠ 200 →
      (delete_model modelId (.ok (st, text))).reports
        = [Report.deleteHeader modelId, Report.deleteFailure st (decodeBody text)] ∧
      (delete_model modelId (.ok (st, text))).result = .ok ()) := by
  constructor
  · by_cases h : st = 200 <;> simp [delete_model, api_request_ok, h]
  · intro h
    constructor <;> simp [delete_model, api_request_ok, h]

theorem c7_witness :
    ((404 : Nat) ≠ 200) ∧
    (delete_model "xyz" (.ok (404, "Not Found"))).calls
      = [⟨"POST", "/model/delete", some (Json.obj (.cons "id" (.str "xyz") .nil))⟩] ∧
    (delete_model "xyz" (.ok (404, "Not Found"))).reports
      = [Report.deleteHeader "xyz", Report.deleteFailure 404 (decodeBody "Not Found")] :=
  ⟨by decide, (c7_delete "xyz" 404 "Not Found").1,
    ((c7_delete "xyz" 404 "Not Found").2 (by decide)).1⟩

/-- C5: every preset in the catalog has a non-empty routes list, a
non-empty default model, and every route carries a score_threshold whose
value lies in the closed interval from 0 to 1. -/
theorem c5_preset_invariants (k : PresetKey) :
    (PRESETS k).routes ≠ JsonList.nil ∧
    (PRESETS k).defaultModel ≠ "" ∧
    ∀ r, jmem r (PRESETS k).routes →
      ∃ m sc, objGet r "score_threshold" = some (Json.num m sc) ∧
        0 ≤ (m : ℚ) / (10 : ℚ) ^ sc ∧ (m : ℚ) / (10 : ℚ) ^ sc ≤ 1 := by
  cases k <;>
    refine ⟨fun h => JsonList.noConfusion h, by decide, ?_⟩ <;>
    intro r hr <;>
    simp only [PRESETS, jmem] at hr <;>
    rcases hr with rfl | rfl | rfl | h <;>
    first
      | exact absurd h (by simp [jmem])
      | exact ⟨_, _, rfl, by norm_num, by norm_num⟩

theorem c5_witness :
    jmem codingRoute1 (PRESETS PresetKey.coding).routes ∧
    (∃ m sc, objGet codingRoute1 "score_threshold" = some (Json.num m sc) ∧
      0 ≤ (m : ℚ) / (10 : ℚ) ^ sc ∧ (m : ℚ) / (10 : ℚ) ^ sc ≤ 1) :=
  ⟨Or.inl rfl, (c5_preset_invariants PresetKey.coding).2.2 codingRoute1 (Or.inl rfl)⟩

/-- C10: for every router name, routes list and default model, the
creation payload's litellm_params.model field is the string auto_router/
followed by the name, and its auto_router_embedding_model field is the
constant mistral/mistral-embed. -/
theorem c10_model_and_embedding (routes : JsonList) (defaultModel name : String) :
    objGet2 (createPayload name routes defaultModel) "litellm_params" "model"
        = some (Json.str ("auto_router/" ++ name)) ∧
    objGet2 (createPayload name routes defaultModel) "litellm_params" "auto_router_embedding_model"
        = some (Json.str "mistral/mistral-embed") ∧
    EMBEDDING_MODEL = "mistral/mistral-embed" :=
  ⟨rfl, rfl, rfl⟩

/-- C6: create MyCoder with the coding preset issues exactly one POST to
/model/new whose body has model_name MyCoder, default model
mistral/codestral-2508 and a routes array of length 3 inside the encoded
config; on a 200 response carrying model_id abc123 it reports success and
the identifier abc123. -/
theorem c6_end_to_end :
    (runCreate ⟨"MyCoder", some PresetKey.coding, none, none⟩ (fun _ => JsonList.nil)
        (Except.ok (200, "\x7b\"model_id\": \"abc123\"\x7d"))).calls
      = [⟨"POST", "/model/new",
          some (createPayload "MyCoder" (PRESETS PresetKey.coding).routes "mistral/codestral-2508")⟩] ∧
    objGet (createPayload "MyCoder" (PRESETS PresetKey.coding).routes "mistral/codestral-2508")
        "model_name" = some (Json.str "MyCoder") ∧
    objGet2 (createPayload "MyCoder" (PRESETS PresetKey.coding).routes "mistral/codestral-2508")
        "litellm_params" "auto_router_default_model"
      = some (Json.str "mistral/codestral-2508") ∧
    objGet2 (createPayload "MyCoder" (PRESETS PresetKey.coding).routes "mistral/codestral-2508")
        "litellm_params" "auto_router_config"
      = some (Json.str (dumps
          (Json.obj (.cons "routes" (.arr (PRESETS PresetKey.coding).routes) .nil)))) ∧
    parseJson (dumps (Json.obj (.cons "routes" (.arr (PRESETS PresetKey.coding).routes) .nil)))
      = some (Json.obj (.cons "routes" (.arr (PRESETS PresetKey.coding).routes) .nil)) ∧
    jlength (PRESETS PresetKey.coding).routes = 3 ∧
    (runCreate ⟨"MyCoder", some PresetKey.coding, none, none⟩ (fun _ => JsonList.nil)
        (Except.ok (200, "\x7b\"model_id\": \"abc123\"\x7d"))).reports
      = [Report.createHeader "MyCoder" "mistral/codestral-2508" 3,
         Report.createSuccess "MyCoder" (Json.str "abc123")] ∧
    (runCreate ⟨"MyCoder", some PresetKey.coding, none, none⟩ (fun _ => JsonList.nil)
        (Except.ok (200, "\x7b\"model_id\": \"abc123\"\x7d"))).result = .ok () :=
  ⟨rfl, rfl, rfl, rfl, parse_dumps _, rfl, rfl, rfl⟩

/-- C3 (counterexample input): when both a preset and a routes-file path
are supplied, the dispatcher takes the preset branch, performs one network
call and reports no usage error, contradicting the claim that it reports
an error and performs no call. -/
theorem c3_counterexample :
    (runCreate ⟨"X", some PresetKey.coding, some "f.json", some "m"⟩ (fun _ => JsonList.nil)
        (Except.ok (200, "x"))).calls.length = 1 ∧
    (runCreate ⟨"X", some PresetKey.coding, some "f.json", some "m"⟩ (fun _ => JsonList.nil)
        (Except.ok (200, "x"))).reports.any Report.isUsage = false :=
  ⟨rfl, rfl⟩

/-- C3 (amended): the dispatcher requires at least one of preset and
routes-file: when neither is supplied (including an empty routes path,
which Python truthiness treats as absent) it reports a usage error and
performs no network call; when both are supplied the preset takes
precedence. -/
theorem c3_amended (args : CreateArgs) (readRoutes : String → JsonList)
    (resp : Except Fault (Nat × String))
    (hp : args.preset = none) (hr : optTruthy args.routesFile = false) :
    (runCreate args readRoutes resp).reports = [Report.usageError errEitherRequired] ∧
    (runCreate args readRoutes resp).calls = [] := by
  obtain ⟨name, preset, routesFile, defaultModel⟩ := args
  simp only at hp hr
  subst hp
  cases routesFile with
  | none => exact ⟨rfl, rfl⟩
  | some path =>
    simp only [optTruthy, bne_eq_false_iff_eq] at hr
    subst hr
    exact ⟨rfl, rfl⟩

theorem c3_witness :
    (⟨"X", none, none, none⟩ : CreateArgs).preset = none ∧
    optTruthy (⟨"X", none, none, none⟩ : CreateArgs).routesFile = false ∧
    ((runCreate ⟨"X", none, none, none⟩ (fun _ => JsonList.nil)
        (Except.ok (200, "x"))).reports = [Report.usageError errEitherRequired] ∧
      (runCreate ⟨"X", none, none, none⟩ (fun _ => JsonList.nil)
        (Except.ok (200, "x"))).calls = []) :=
  ⟨rfl, rfl, c3_amended ⟨"X", none, none, none⟩ (fun _ => JsonList.nil)
    (Except.ok (200, "x")) rfl rfl⟩

/-- C8 (counterexample input): an invocation that supplies a routes-file
path and no default model, but also a preset, takes the preset branch and
performs a network call with no usage error, contradicting the claim for
every invocation with a routes path and no default. -/
theorem c8_counterexample :
    (runCreate ⟨"Y", some PresetKey.quick, some "f.json", none⟩ (fun _ => JsonList.nil)
        (Except.ok (200, "x"))).calls.length = 1 ∧
    (runCreate ⟨"Y", some PresetKey.quick, some "f.json", none⟩ (fun _ => JsonList.nil)
        (Except.ok (200, "x"))).reports.any Report.isUsage = false :=
  ⟨rfl, rfl⟩

/-- C8 (amended): when no preset is supplied, a truthy routes-file path is
supplied, and the default model is missing or empty, the dispatcher
reports the default-required usage error and performs no network call,
without reading the routes file. -/
theorem c8_amended (args : CreateArgs) (readRoutes : String → JsonList)
    (resp : Except Fault (Nat × String))
    (hp : args.preset = none) (hr : optTruthy args.routesFile = true)
    (hd : optTruthy args.defaultModel = false) :
    (runCreate args readRoutes resp).reports = [Report.usageError errDefaultRequired] ∧
    (runCreate args readRoutes resp).calls = [] := by
  obtain ⟨name, preset, routesFile, defaultModel⟩ := args
  simp only at hp hr hd
  subst hp
  cases routesFile with
  | none => simp [optTruthy] at hr
  | some path =>
    simp only [optTruthy, bne_iff_ne, ne_eq] at hr
    cases defaultModel with
    | none => simp [runCreate, hr]
    | some d =>
      simp only [optTruthy, bne_eq_false_iff_eq] at hd
      subst hd
      simp [runCreate, hr]

theorem c8_witness :
    (⟨"Z", none, some "routes.json", none⟩ : CreateArgs).preset = none ∧
    optTruthy (⟨"Z", none, some "routes.json", none⟩ : CreateArgs).routesFile = true ∧
    optTruthy (⟨"Z", none, some "routes.json", none⟩ : CreateArgs).defaultModel = false ∧
    ((runCreate ⟨"Z", none, some "routes.json", none⟩ (fun _ => JsonList.nil)
        (Except.ok (200, "x"))).reports = [Report.usageError errDefaultRequired] ∧
      (runCreate ⟨"Z", none, some "routes.json", none⟩ (fun _ => JsonList.nil)
        (Except.ok (200, "x"))).calls = []) :=
  ⟨rfl, rfl, rfl, c8_amended ⟨"Z", none, some "routes.json", none⟩ (fun _ => JsonList.nil)
    (Except.ok (200, "x")) rfl rfl rfl⟩
